import Mathlib

/-!
# Intel Atom platform clock gates (drivers/clk/x86/clk-byt-plt.c) and the
# HDMI audio register shim (drivers/gpu/drm/i915/hdmi_audio_if.c)

A shallow embedding of the Baytrail/CherryTrail platform clock driver: the
register encoding helpers, the locked read-modify-write primitive, the
`clk_ops` callbacks built on it, and the attach/detach orchestration.

Conventions.
* `u32` values and the bit pattern of an `int` that is only masked are natural
  numbers below `2 ^ 32`; status codes (`int ret`) are integers.
* The PMC register accessors `pmc_atom_read` / `pmc_atom_write` live outside the
  driver, so every callback takes them as a parameter (`PmcDev`), threaded over
  an explicit hardware state.
* `spin_lock_irqsave` / `spin_unlock_irqrestore` have no effect on a sequential
  execution and are not represented.
* The host clock framework is a registry (`Host`) plus the outcome of each
  fallible service (`HostEnv`); releasing memory (`kfree`, `kfree_const`) does not
  touch the registry and is not represented.
* The HDMI audio accessors reach the display controller through the `I915_READ`
  / `I915_WRITE` macros of i915_drv.h, taken as a parameter (`I915Dev`); the
  global `hdmi_priv` is passed explicitly.
-/

namespace ClkBytPlt

/-! ## Register layout -/

/-- Modelled from the spec: the kernel macro `BIT(n)` (linux/bitops.h), the
word with only bit `n` set; the spec gives the frequency-field mask `0b100`. -/
def BIT (n : Nat) : Nat := 2 ^ n

/-- Modelled from the spec: the kernel macro `GENMASK(h, l)` (linux/bitops.h),
the word with bits `h..l` set; the spec gives the control-field mask `0b011`. -/
def GENMASK (h l : Nat) : Nat := (2 ^ (h + 1) - 1) - (2 ^ l - 1)

def PMC_CLK_CTL_0 : Nat := 0x60
def PMC_CLK_CTL_SIZE : Nat := 4
def PMC_CLK_NUM : Nat := 6
def PMC_MASK_CLK_CTL : Nat := GENMASK 1 0
def PMC_MASK_CLK_FREQ : Nat := BIT 2
def PMC_CLK_CTL_GATED_ON_D3 : Nat := 0x0
def PMC_CLK_CTL_FORCE_ON : Nat := 0x1
def PMC_CLK_CTL_FORCE_OFF : Nat := 0x2
def PMC_CLK_CTL_RESERVED : Nat := 0x3
def PMC_CLK_FREQ_XTAL : Nat := 0x0
def PMC_CLK_FREQ_PLL : Nat := 0x4

/-- Conversion of an `int` to `u8` (value modulo 256). -/
def to_u8 (x : Int) : Nat := (x % 256).toNat

/-- Conversion to `u32` (value modulo 2^32). -/
def to_u32 (x : Nat) : Nat := x % 4294967296

/-- Bitwise complement of a `u32`. -/
def u32_not (x : Nat) : Nat := 4294967295 - to_u32 x

/-- The fields of `struct clk_plt` that the callbacks read. -/
structure clk_plt where
  id : Nat
  offset : Nat
  deriving DecidableEq, Repr

/-- The `id` and `offset` that `plt_clk_register` stores for gate `id`:
`pclk->id = id; pclk->offset = PMC_CLK_CTL_0 + id * PMC_CLK_CTL_SIZE`. -/
def clk_plt_init (id : Nat) : clk_plt :=
  { id := id, offset := PMC_CLK_CTL_0 + id * PMC_CLK_CTL_SIZE }

/-! ## Encoding helpers -/

/-- Source function `plt_reg_to_parent`: switch on `reg & PMC_MASK_CLK_FREQ`.
`reg` is the two's-complement bit pattern of the `int` argument (the caller
passes a `u32`). -/
def plt_reg_to_parent (reg : Nat) : Nat :=
  if reg &&& PMC_MASK_CLK_FREQ = PMC_CLK_FREQ_XTAL then 0
  else if reg &&& PMC_MASK_CLK_FREQ = PMC_CLK_FREQ_PLL then 1
  else 0

/-- Source function `plt_parent_to_reg`: switch on the parent index. -/
def plt_parent_to_reg (index : Nat) : Nat :=
  match index with
  | 0 => PMC_CLK_FREQ_XTAL
  | 1 => PMC_CLK_FREQ_PLL
  | _ => PMC_CLK_FREQ_XTAL

/-- Source function `plt_reg_to_enabled`: switch on `reg & PMC_MASK_CLK_CTL`. -/
def plt_reg_to_enabled (reg : Nat) : Int :=
  if reg &&& PMC_MASK_CLK_CTL = PMC_CLK_CTL_GATED_ON_D3 then 1
  else if reg &&& PMC_MASK_CLK_CTL = PMC_CLK_CTL_FORCE_ON then 1
  else 0

/-! ## The PMC register interface -/

/-- The two accessors of asm/pmc_atom.h over a hardware state `σ`.
`pmc_atom_read s offset` gives the status, the value stored through the `u32 *`
argument, and the next state; `pmc_atom_write s offset value` gives the status
and the next state. A status of `0` is success. -/
structure PmcDev (σ : Type) where
  pmc_atom_read : σ → Nat → Int × Nat × σ
  pmc_atom_write : σ → Nat → Nat → Int × σ

/-- One access issued to the PMC. -/
inductive PmcCall where
  | read (offset : Nat)
  | write (offset : Nat) (value : Nat)
  deriving DecidableEq, Repr

/-- Whether an access is a write. -/
def PmcCall.isWrite : PmcCall → Bool
  | .read _ => false
  | .write _ _ => true

/-- The register offset an access addresses. -/
def PmcCall.offset : PmcCall → Nat
  | .read offset => offset
  | .write offset _ => offset

/-- A device instrumented with the list of accesses issued to it, oldest first. -/
def traced {σ : Type} (dev : PmcDev σ) : PmcDev (σ × List PmcCall) where
  pmc_atom_read s offset :=
    let r := dev.pmc_atom_read s.1 offset
    (r.1, r.2.1, (r.2.2, s.2 ++ [PmcCall.read offset]))
  pmc_atom_write s offset value :=
    let r := dev.pmc_atom_write s.1 offset value
    (r.1, (r.2, s.2 ++ [PmcCall.write offset value]))

/-- A register store that is a plain read-back memory: every read succeeds and
returns the stored word, every write succeeds and replaces it. -/
def memDev : PmcDev (Nat → Nat) where
  pmc_atom_read m offset := (0, m offset, m)
  pmc_atom_write m offset value := (0, Function.update m offset value)

/-! ## The read-modify-write primitive and the clock callbacks -/

/-- Source function `plt_pmc_atom_update`: read the register, replace the bits
under `mask` by those of `val`, and write the result back unless it equals the
value read. -/
def plt_pmc_atom_update {σ : Type} (dev : PmcDev σ) (clk : clk_plt) (mask val : Nat)
    (s : σ) : Int × σ :=
  let r := dev.pmc_atom_read s clk.offset
  let ret := r.1
  let orig := to_u32 r.2.1
  let s := r.2.2
  if ret ≠ 0 then (ret, s)
  else
    let tmp := orig &&& u32_not mask
    let tmp := tmp ||| (val &&& mask)
    if tmp = orig then (ret, s)
    else
      let w := dev.pmc_atom_write s clk.offset tmp
      let ret := w.1
      let s := w.2
      if ret ≠ 0 then (ret, s)
      else (ret, s)

/-- Source function `plt_clk_set_parent`. -/
def plt_clk_set_parent {σ : Type} (dev : PmcDev σ) (clk : clk_plt) (index : Nat)
    (s : σ) : Int × σ :=
  plt_pmc_atom_update dev clk PMC_MASK_CLK_FREQ (plt_parent_to_reg index) s

/-- Source function `plt_clk_get_parent`: the result is a `u8`. -/
def plt_clk_get_parent {σ : Type} (dev : PmcDev σ) (clk : clk_plt) (s : σ) : Nat × σ :=
  let r := dev.pmc_atom_read s clk.offset
  let ret := r.1
  let value := to_u32 r.2.1
  if ret ≠ 0 then (to_u8 ret, r.2.2)
  else (to_u8 (plt_reg_to_parent value), r.2.2)

/-- Source function `plt_clk_enable`. -/
def plt_clk_enable {σ : Type} (dev : PmcDev σ) (clk : clk_plt) (s : σ) : Int × σ :=
  plt_pmc_atom_update dev clk PMC_MASK_CLK_CTL PMC_CLK_CTL_FORCE_ON s

/-- Source function `plt_clk_disable`: the status of the update is dropped. -/
def plt_clk_disable {σ : Type} (dev : PmcDev σ) (clk : clk_plt) (s : σ) : σ :=
  (plt_pmc_atom_update dev clk PMC_MASK_CLK_CTL PMC_CLK_CTL_FORCE_OFF s).2

/-- Source function `plt_clk_is_enabled`. -/
def plt_clk_is_enabled {σ : Type} (dev : PmcDev σ) (clk : clk_plt) (s : σ) : Int × σ :=
  let r := dev.pmc_atom_read s clk.offset
  let ret := r.1
  let value := to_u32 r.2.1
  if ret ≠ 0 then (ret, r.2.2)
  else (plt_reg_to_enabled value, r.2.2)

/-- A memory whose reads report status `rd` and whose writes report status
`wr`; a write that reports a failure stores nothing. -/
def faultyDev (rd wr : Int) : PmcDev (Nat → Nat) where
  pmc_atom_read m offset := (rd, m offset, m)
  pmc_atom_write m offset value :=
    (wr, if wr = 0 then Function.update m offset value else m)

/-- Written from the specification of the register RMW primitive:
`new = (old & ~mask) | (value & mask)` in 32-bit arithmetic. -/
def rmw_new (old mask value : Nat) : Nat :=
  (old &&& u32_not mask) ||| (value &&& mask)

/-! ## The host clock framework -/

/-- A clock handed out by the host framework: the fixed-rate clock created for
platform descriptor `i`, or the gate whose `struct clk_plt` is `pclk`. -/
inductive Clk where
  | fixed (i : Nat)
  | gate (pclk : clk_plt)
  deriving DecidableEq, Repr

/-- A call into the host framework that changed its registry. -/
inductive HostCall where
  | clk_register (c : Clk)
  | clkdev_create (c : Clk)
  | clkdev_drop (c : Clk)
  | clk_unregister (c : Clk)
  deriving DecidableEq, Repr

/-- The host framework's registry: the clocks registered, the clkdev lookups
installed (both newest first), and the calls made so far (oldest first). -/
structure Host where
  clks : List Clk
  lookups : List Clk
  calls : List HostCall
  deriving DecidableEq, Repr

/-- Outcome of every fallible host service the driver calls, by call site and
index: allocations (`true` = memory obtained), `clk_register` and
`clk_register_fixed_rate` (`none` = a clock, `some e` = `ERR_PTR(e)`), and
`clkdev_create` (`true` = a lookup, `false` = NULL). -/
structure HostEnv where
  devm_kzalloc_data : Bool
  devm_kzalloc_parents : Bool
  kcalloc_parent_names : Bool
  devm_kzalloc_fixed : Nat → Bool
  clk_register_fixed_rate : Nat → Option Int
  clkdev_create_fixed : Nat → Bool
  devm_kzalloc_plt : Nat → Bool
  clk_register : Nat → Option Int
  clkdev_create_plt : Nat → Bool

def ENOMEM : Int := 12

/-- A successful `clk_register` / `clk_register_fixed_rate`. -/
def Host.clk_register (c : Clk) (h : Host) : Host :=
  { h with clks := c :: h.clks, calls := h.calls ++ [HostCall.clk_register c] }

/-- A successful `clkdev_create`. -/
def Host.clkdev_create (c : Clk) (h : Host) : Host :=
  { h with lookups := c :: h.lookups, calls := h.calls ++ [HostCall.clkdev_create c] }

/-- The host's `clkdev_drop`. -/
def Host.clkdev_drop (c : Clk) (h : Host) : Host :=
  { h with lookups := h.lookups.erase c, calls := h.calls ++ [HostCall.clkdev_drop c] }

/-- The host's `clk_unregister`. -/
def Host.clk_unregister (c : Clk) (h : Host) : Host :=
  { h with clks := h.clks.erase c, calls := h.calls ++ [HostCall.clk_unregister c] }

/-- One platform descriptor (`struct pmc_clk`). -/
structure pmc_clk where
  name : String
  parent_name : Option String
  freq : Nat
  deriving DecidableEq, Repr

/-- The driver data (`struct clk_plt_data`): `parents` and `clks` hold the
entries assigned so far, in index order. -/
structure clk_plt_data where
  parents : List Clk
  nparents : Nat
  clks : List Clk
  deriving DecidableEq, Repr

/-! ## Registration and attach/detach -/

/-- Source function `plt_clk_register` for gate `id`. -/
def plt_clk_register (env : HostEnv) (id : Nat) (h : Host) : Except Int Clk × Host :=
  if !env.devm_kzalloc_plt id then (Except.error (-ENOMEM), h)
  else
    let pclk := clk_plt_init id
    match env.clk_register id with
    | some e => (Except.error e, h)
    | none =>
      let clk := Clk.gate pclk
      let h := h.clk_register clk
      if !env.clkdev_create_plt id then
        let h := h.clk_unregister clk
        (Except.error (-ENOMEM), h)
      else
        let h := h.clkdev_create clk
        (Except.ok clk, h)

/-- Source function `plt_clk_unregister`: `__clk_get_hw` is NULL only for a NULL `clk`. -/
def plt_clk_unregister (clk : Option Clk) (h : Host) : Host :=
  match clk with
  | none => h
  | some c => (h.clkdev_drop c).clk_unregister c

/-- Source function `plt_clk_register_fixed_rate` for descriptor `i`. -/
def plt_clk_register_fixed_rate (env : HostEnv) (i : Nat) (h : Host) : Except Int Clk × Host :=
  if !env.devm_kzalloc_fixed i then (Except.error (-ENOMEM), h)
  else
    match env.clk_register_fixed_rate i with
    | some e => (Except.error e, h)
    | none =>
      let clk := Clk.fixed i
      let h := h.clk_register clk
      if !env.clkdev_create_fixed i then
        let h := h.clk_unregister clk
        (Except.error (-ENOMEM), h)
      else
        let h := h.clkdev_create clk
        (Except.ok clk, h)

/-- Source function `plt_clk_unregister_fixed_rate`. -/
def plt_clk_unregister_fixed_rate (pclk : Clk) (h : Host) : Host :=
  (h.clkdev_drop pclk).clk_unregister pclk

/-- The scan `while (clks[data->nparents].name) data->nparents++` of
`plt_clk_register_parents`, with `nparents` a `u8` starting from `n`; `clks`
holds the descriptors before the sentinel. `none` when the fuel runs out. -/
def scan_parents (clks : List pmc_clk) : Nat → Nat → Option Nat
  | _, 0 => none
  | n, fuel + 1 =>
    if n < clks.length then scan_parents clks ((n + 1) % 256) fuel else some n

/-- The registration loop of `plt_clk_register_parents` from index `i` with
`rem` iterations left: `Except.error (err, i)` is the jump to `err_unreg`. -/
def register_parents_loop (env : HostEnv) :
    Nat → Nat → List Clk → Host → Except (Int × Nat) Unit × List Clk × Host
  | _, 0, parents, h => (Except.ok (), parents, h)
  | i, rem + 1, parents, h =>
    match plt_clk_register_fixed_rate env i h with
    | (Except.error err, h) => (Except.error (err, i), parents, h)
    | (Except.ok p, h) => register_parents_loop env (i + 1) rem (parents ++ [p]) h

/-- Source function `plt_clk_register_parents`, called on the zeroed driver data
that `plt_clk_probe` allocates: the result is the status (`Except.ok` with the
parent names, empty for the NULL returned without platform data), the driver
data and the host; `none` when the descriptor scan does not end. -/
def plt_clk_register_parents (env : HostEnv) (platdata : Option (List pmc_clk)) (h : Host) :
    Option (Except Int (List String) × clk_plt_data × Host) :=
  let data : clk_plt_data := { parents := [], nparents := 0, clks := [] }
  match platdata with
  | none => some (Except.ok [], data, h)
  | some clks =>
    match scan_parents clks 0 256 with
    | none => none
    | some n =>
      let data := { data with nparents := n }
      if !env.devm_kzalloc_parents then
        some (Except.error (-ENOMEM), { data with nparents := 0 }, h)
      else if !env.kcalloc_parent_names then
        some (Except.error (-ENOMEM), { data with nparents := 0 }, h)
      else
        match register_parents_loop env 0 data.nparents [] h with
        | (Except.ok (), parents, h) =>
          some (Except.ok ((clks.take n).map pmc_clk.name), { data with parents := parents }, h)
        | (Except.error (err, i), parents, h) =>
          let h := (List.range i).reverse.foldl
            (fun h j => match parents[j]? with
              | some p => plt_clk_unregister_fixed_rate p h
              | none => h) h
          some (Except.error err, { data with parents := parents, nparents := 0 }, h)

/-- Source function `plt_clk_unregister_parents`: `for (i = 0; i < data->nparents; i++)`. -/
def plt_clk_unregister_parents (data : clk_plt_data) (h : Host) : Host :=
  (List.range data.nparents).foldl
    (fun h i => match data.parents[i]? with
      | some p => plt_clk_unregister_fixed_rate p h
      | none => h) h

/-- The gate registration loop of `plt_clk_probe` from index `i` with `rem`
iterations left: `Except.error (err, i)` is the jump to `err_unreg_clk_plt`. -/
def probe_loop (env : HostEnv) :
    Nat → Nat → List Clk → Host → Except (Int × Nat) Unit × List Clk × Host
  | _, 0, clks, h => (Except.ok (), clks, h)
  | i, rem + 1, clks, h =>
    match plt_clk_register env i h with
    | (Except.error err, h) => (Except.error (err, i), clks, h)
    | (Except.ok c, h) => probe_loop env (i + 1) rem (clks ++ [c]) h

/-- Source function `plt_clk_probe`: the status, the driver data installed with
`dev_set_drvdata` (if any) and the host; `none` when it does not return. -/
def plt_clk_probe (env : HostEnv) (platdata : Option (List pmc_clk)) (h : Host) :
    Option (Int × Option clk_plt_data × Host) :=
  if !env.devm_kzalloc_data then some (-ENOMEM, none, h)
  else
    match plt_clk_register_parents env platdata h with
    | none => none
    | some (Except.error err, _, h) => some (err, none, h)
    | some (Except.ok _, data, h) =>
      match probe_loop env 0 PMC_CLK_NUM [] h with
      | (Except.ok (), clks, h) => some (0, some { data with clks := clks }, h)
      | (Except.error (err, i), clks, h) =>
        let data := { data with clks := clks }
        let h := (List.range i).reverse.foldl
          (fun h j => plt_clk_unregister data.clks[j]? h) h
        let h := plt_clk_unregister_parents data h
        some (err, none, h)

/-- Source function `plt_clk_remove`. -/
def plt_clk_remove (drvdata : Option clk_plt_data) (h : Host) : Int × Host :=
  match drvdata with
  | none => (0, h)
  | some data =>
    let h := (List.range PMC_CLK_NUM).foldl
      (fun h i => plt_clk_unregister data.clks[i]? h) h
    let h := plt_clk_unregister_parents data h
    (0, h)

/-- The clocks passed to `clk_unregister`, in call order. -/
def unregistered (calls : List HostCall) : List Clk :=
  calls.filterMap (fun c => match c with
    | HostCall.clk_unregister k => some k
    | _ => none)

/-- A host environment in which every service succeeds. -/
def okEnv : HostEnv where
  devm_kzalloc_data := true
  devm_kzalloc_parents := true
  kcalloc_parent_names := true
  devm_kzalloc_fixed := fun _ => true
  clk_register_fixed_rate := fun _ => none
  clkdev_create_fixed := fun _ => true
  devm_kzalloc_plt := fun _ => true
  clk_register := fun _ => none
  clkdev_create_plt := fun _ => true

/-- The two descriptors of the Baytrail platform data. -/
def byt_clks : List pmc_clk :=
  [{ name := "xtal", parent_name := none, freq := 25000000 },
   { name := "pll", parent_name := none, freq := 19200000 }]

/-- A host with nothing registered. -/
def Host.empty : Host := { clks := [], lookups := [], calls := [] }

/-- The host calls of one successful registration of `c`. -/
def reg_calls (c : Clk) : List HostCall :=
  [HostCall.clk_register c, HostCall.clkdev_create c]

/-- The host calls of one unregistration of `c`. -/
def unreg_calls (c : Clk) : List HostCall :=
  [HostCall.clkdev_drop c, HostCall.clk_unregister c]

/-- The handle of gate `id`. -/
def gate_clk (id : Nat) : Clk := Clk.gate (clk_plt_init id)

/-- A host environment in which `clk_register` rejects gate 3 with `-EEXIST`
and every other service succeeds. -/
def gate3Env : HostEnv :=
  { okEnv with clk_register := fun id => if id = 3 then some (-17) else none }

/-- The driver data after registering the parents of `byt_clks`. -/
def byt_data : clk_plt_data :=
  { parents := [Clk.fixed 0, Clk.fixed 1], nparents := 2, clks := [] }

/-- The host after registering the parents of `byt_clks` on an empty registry. -/
def byt_host : Host :=
  { clks := [Clk.fixed 1, Clk.fixed 0],
    lookups := [Clk.fixed 1, Clk.fixed 0],
    calls := reg_calls (Clk.fixed 0) ++ reg_calls (Clk.fixed 1) }

end ClkBytPlt

namespace HdmiAudioIf

/-! ## HDMI audio register accessors -/

def EINVAL : Int := 22

/-- The macro `IS_HDMI_AUDIO_I915(reg)`:
`((reg >= 0x65000) && (reg < 0x65FFF))`. -/
def IS_HDMI_AUDIO_I915 (reg : Nat) : Bool :=
  decide (reg ≥ 0x65000) && decide (reg < 0x65FFF)

/-- The register macros of i915_drv.h over a hardware state `σ`:
`I915_READ s addr` gives the value read and the next state, `I915_WRITE s addr
value` the next state. -/
structure I915Dev (σ : Type) where
  I915_READ : σ → Nat → Nat × σ
  I915_WRITE : σ → Nat → Nat → σ

/-- One MMIO access issued to the display controller. -/
inductive MmioCall where
  | read (addr : Nat)
  | write (addr : Nat) (value : Nat)
  deriving DecidableEq, Repr

/-- A display controller instrumented with the list of accesses issued to it,
oldest first. -/
def tracedMmio {σ : Type} (dev : I915Dev σ) : I915Dev (σ × List MmioCall) where
  I915_READ s addr :=
    let r := dev.I915_READ s.1 addr
    (r.1, (r.2, s.2 ++ [MmioCall.read addr]))
  I915_WRITE s addr value :=
    (dev.I915_WRITE s.1 addr value, s.2 ++ [MmioCall.write addr value])

/-- A display controller that is a plain read-back memory. -/
def mmioMem : I915Dev (Nat → Nat) where
  I915_READ m addr := (m addr, m)
  I915_WRITE m addr value := Function.update m addr value

/-- The field of `struct hdmi_audio_priv` that the accessors test. -/
structure hdmi_audio_priv where
  monitor_type : Nat
  deriving DecidableEq, Repr

/-- The constants of i915_reg.h and hdmi_audio_if.h that the accessors use; their
values are not fixed by this file. -/
structure Consts where
  VLV_DISPLAY_BASE : Nat
  MONITOR_TYPE_DVI : Nat
  deriving DecidableEq, Repr

/-- Source function `hdmi_audio_write`; the address `VLV_DISPLAY_BASE + reg` is
computed in `u32`. -/
def hdmi_audio_write {σ : Type} (dev : I915Dev σ) (k : Consts) (hdmi_priv : hdmi_audio_priv)
    (reg val : Nat) (s : σ) : Int × σ :=
  let ret : Int := 0
  if hdmi_priv.monitor_type = k.MONITOR_TYPE_DVI then (0, s)
  else if IS_HDMI_AUDIO_I915 reg then
    let s := dev.I915_WRITE s (ClkBytPlt.to_u32 (k.VLV_DISPLAY_BASE + reg)) val
    (ret, s)
  else
    let ret := -EINVAL
    (ret, s)

/-- Source function `hdmi_audio_read`: the status, the content of `*val`
afterwards (`val` is its content before) and the next state. -/
def hdmi_audio_read {σ : Type} (dev : I915Dev σ) (k : Consts) (hdmi_priv : hdmi_audio_priv)
    (reg val : Nat) (s : σ) : Int × Nat × σ :=
  let ret : Int := 0
  if hdmi_priv.monitor_type = k.MONITOR_TYPE_DVI then (0, val, s)
  else if IS_HDMI_AUDIO_I915 reg then
    let r := dev.I915_READ s (ClkBytPlt.to_u32 (k.VLV_DISPLAY_BASE + reg))
    (ret, ClkBytPlt.to_u32 r.1, r.2)
  else
    let ret := -EINVAL
    (ret, val, s)

/-- Source function `hdmi_audio_rmw`. -/
def hdmi_audio_rmw {σ : Type} (dev : I915Dev σ) (k : Consts) (reg val mask : Nat)
    (s : σ) : Int × σ :=
  let ret : Int := 0
  if IS_HDMI_AUDIO_I915 reg then
    let r := dev.I915_READ s (ClkBytPlt.to_u32 (k.VLV_DISPLAY_BASE + reg))
    let val_tmp := (val &&& mask) ||| (ClkBytPlt.to_u32 r.1 &&& ClkBytPlt.u32_not mask)
    let s := dev.I915_WRITE r.2 (ClkBytPlt.to_u32 (k.VLV_DISPLAY_BASE + reg)) val_tmp
    (ret, s)
  else
    let ret := -EINVAL
    (ret, s)

end HdmiAudioIf

namespace ClkBytPlt

/-! ## Bit-level lemmas for the update -/

theorem to_u32_lt (x : Nat) : to_u32 x < 4294967296 := by
  unfold to_u32; omega

theorem mask_ctl_eq : PMC_MASK_CLK_CTL = 3 := by decide

theorem mask_freq_eq : PMC_MASK_CLK_FREQ = 4 := by decide

theorem testBit_u32_not (x i : Nat) (hx : x < 4294967296) :
    (u32_not x).testBit i = (decide (i < 32) && !x.testBit i) := by
  have h : u32_not x = 2 ^ 32 - (x + 1) := by
    unfold u32_not to_u32; omega
  rw [h]
  exact Nat.testBit_two_pow_sub_succ (by omega) i

theorem testBit_of_u32 (x i : Nat) (hx : x < 4294967296) (hi : 32 ≤ i) :
    x.testBit i = false := by
  apply Nat.testBit_lt_two_pow
  calc x < 2 ^ 32 := by omega
    _ ≤ 2 ^ i := Nat.pow_le_pow_right (by decide) hi

/-- Bit `i` of the updated word comes from `val` under the mask and from the
original word elsewhere. -/
theorem testBit_update (orig mask val i : Nat) (ho : orig < 4294967296)
    (hm : mask < 4294967296) :
    ((orig &&& u32_not mask) ||| (val &&& mask)).testBit i =
      if mask.testBit i then val.testBit i else orig.testBit i := by
  rw [Nat.testBit_or, Nat.testBit_and, Nat.testBit_and, testBit_u32_not mask i hm]
  by_cases hi : i < 32
  · cases hb : mask.testBit i <;> simp [hi]
  · have h1 := testBit_of_u32 orig i ho (by omega)
    have h2 := testBit_of_u32 mask i hm (by omega)
    simp [h1, h2]

theorem update_lt (orig mask val : Nat) (ho : orig < 4294967296) (hm : mask < 4294967296) :
    (orig &&& u32_not mask) ||| (val &&& mask) < 4294967296 := by
  have h1 : orig &&& u32_not mask < 2 ^ 32 :=
    lt_of_le_of_lt Nat.and_le_left (by omega)
  have h2 : val &&& mask < 2 ^ 32 :=
    lt_of_le_of_lt Nat.and_le_right (by omega)
  exact Nat.or_lt_two_pow h1 h2

/-- Under the mask the updated word carries the bits of `val`. -/
theorem update_and_mask (orig mask val : Nat) (ho : orig < 4294967296)
    (hm : mask < 4294967296) :
    ((orig &&& u32_not mask) ||| (val &&& mask)) &&& mask = val &&& mask := by
  apply Nat.eq_of_testBit_eq
  intro i
  rw [Nat.testBit_and, testBit_update orig mask val i ho hm, Nat.testBit_and]
  cases hb : mask.testBit i <;> simp

/-- Outside the mask the updated word carries the bits of the original. -/
theorem update_and_disjoint (orig mask val other : Nat) (ho : orig < 4294967296)
    (hm : mask < 4294967296) (hd : mask &&& other = 0) :
    ((orig &&& u32_not mask) ||| (val &&& mask)) &&& other = orig &&& other := by
  apply Nat.eq_of_testBit_eq
  intro i
  have hz : (mask &&& other).testBit i = false := by rw [hd]; simp
  rw [Nat.testBit_and] at hz
  rw [Nat.testBit_and, testBit_update orig mask val i ho hm, Nat.testBit_and]
  cases hb : mask.testBit i
  · simp
  · rw [hb] at hz
    simp at hz
    simp [hz]

/-! ## The callbacks over a read-back memory -/

theorem memDev_update (clk : clk_plt) (mask val : Nat) (m : Nat → Nat) :
    plt_pmc_atom_update memDev clk mask val m =
      (0, if (to_u32 (m clk.offset) &&& u32_not mask) ||| (val &&& mask) = to_u32 (m clk.offset)
          then m
          else Function.update m clk.offset
            ((to_u32 (m clk.offset) &&& u32_not mask) ||| (val &&& mask))) := by
  unfold plt_pmc_atom_update
  simp only [memDev]
  split_ifs <;> simp_all

theorem memDev_update_read (clk : clk_plt) (mask val : Nat) (m : Nat → Nat)
    (hm : mask < 4294967296) :
    to_u32 ((plt_pmc_atom_update memDev clk mask val m).2 clk.offset) =
      (to_u32 (m clk.offset) &&& u32_not mask) ||| (val &&& mask) := by
  rw [memDev_update]
  have hlt := update_lt (to_u32 (m clk.offset)) mask val (to_u32_lt _) hm
  by_cases h : (to_u32 (m clk.offset) &&& u32_not mask) ||| (val &&& mask) = to_u32 (m clk.offset)
  · simp only [h, if_true]
  · simp only [h, if_false, Function.update_same]
    unfold to_u32
    exact Nat.mod_eq_of_lt hlt

theorem memDev_update_other (clk : clk_plt) (mask val : Nat) (m : Nat → Nat) (off : Nat)
    (h : off ≠ clk.offset) :
    (plt_pmc_atom_update memDev clk mask val m).2 off = m off := by
  rw [memDev_update]
  split_ifs
  · rfl
  · exact Function.update_noteq h _ _

theorem memDev_is_enabled (clk : clk_plt) (m : Nat → Nat) :
    plt_clk_is_enabled memDev clk m = (plt_reg_to_enabled (to_u32 (m clk.offset)), m) := by
  simp [plt_clk_is_enabled, memDev]

theorem memDev_get_parent (clk : clk_plt) (m : Nat → Nat) :
    plt_clk_get_parent memDev clk m = (to_u8 (plt_reg_to_parent (to_u32 (m clk.offset))), m) := by
  simp [plt_clk_get_parent, memDev]

theorem testBit_to_u32 (x b : Nat) (hb : b < 32) : (to_u32 x).testBit b = x.testBit b := by
  have h : to_u32 x = x % 2 ^ 32 := rfl
  rw [h, Nat.testBit_mod_two_pow]
  simp [hb]

/-- A bit outside the mask keeps its value across an update of the memory. -/
theorem memDev_update_testBit (clk : clk_plt) (mask val : Nat) (m : Nat → Nat) (b : Nat)
    (hm : mask < 4294967296) (hb : b < 32) (hout : mask.testBit b = false) :
    ((plt_pmc_atom_update memDev clk mask val m).2 clk.offset).testBit b =
      (m clk.offset).testBit b := by
  rw [memDev_update]
  split_ifs
  · rfl
  · dsimp only
    rw [Function.update_same, testBit_update _ _ _ _ (to_u32_lt _) hm, hout]
    simp [testBit_to_u32 _ _ hb]

/-- A field disjoint from the mask reads the same after an update of the memory. -/
theorem memDev_update_field (clk : clk_plt) (mask val other : Nat) (m : Nat → Nat)
    (hm : mask < 4294967296) (hd : mask &&& other = 0) :
    to_u32 ((plt_pmc_atom_update memDev clk mask val m).2 clk.offset) &&& other =
      to_u32 (m clk.offset) &&& other := by
  rw [memDev_update_read _ _ _ _ hm, update_and_disjoint _ _ _ _ (to_u32_lt _) hm hd]

theorem testBit_mask_ctl (b : Nat) (hb : 2 ≤ b) : PMC_MASK_CLK_CTL.testBit b = false := by
  apply Nat.testBit_lt_two_pow
  calc PMC_MASK_CLK_CTL < 2 ^ 2 := by decide
    _ ≤ 2 ^ b := Nat.pow_le_pow_right (by decide) hb

theorem testBit_mask_freq (b : Nat) (hb : b ≠ 2) : PMC_MASK_CLK_FREQ.testBit b = false := by
  have h : PMC_MASK_CLK_FREQ = 2 ^ 2 := by decide
  rw [h, Nat.testBit_two_pow]
  simp
  omega

theorem clk_plt_init_offset_ne (i j : Nat) (h : j ≠ i) :
    (clk_plt_init j).offset ≠ (clk_plt_init i).offset := by
  simp only [clk_plt_init, PMC_CLK_CTL_0, PMC_CLK_CTL_SIZE]
  omega

/-- Updating an already updated word changes nothing. -/
theorem update_idem (orig mask val : Nat) (ho : orig < 4294967296) (hm : mask < 4294967296) :
    ((((orig &&& u32_not mask) ||| (val &&& mask)) &&& u32_not mask) ||| (val &&& mask)) =
      ((orig &&& u32_not mask) ||| (val &&& mask)) := by
  apply Nat.eq_of_testBit_eq
  intro i
  rw [testBit_update _ mask val i (update_lt orig mask val ho hm) hm,
    testBit_update orig mask val i ho hm]
  cases hb : mask.testBit i <;> simp

theorem traced_memDev_update (clk : clk_plt) (mask val : Nat) (m : Nat → Nat)
    (log : List PmcCall) :
    plt_pmc_atom_update (traced memDev) clk mask val (m, log) =
      (0, if (to_u32 (m clk.offset) &&& u32_not mask) ||| (val &&& mask) = to_u32 (m clk.offset)
          then (m, log ++ [PmcCall.read clk.offset])
          else (Function.update m clk.offset
              ((to_u32 (m clk.offset) &&& u32_not mask) ||| (val &&& mask)),
            log ++ [PmcCall.read clk.offset,
              PmcCall.write clk.offset
                ((to_u32 (m clk.offset) &&& u32_not mask) ||| (val &&& mask))])) := by
  unfold plt_pmc_atom_update
  simp only [memDev, traced]
  split_ifs <;> simp_all

/-- Masking with the frequency field isolates bit 2. -/
theorem and_mask_freq (x : Nat) :
    x &&& PMC_MASK_CLK_FREQ = if x.testBit 2 then 4 else 0 := by
  have h : PMC_MASK_CLK_FREQ = 2 ^ 2 := by decide
  apply Nat.eq_of_testBit_eq
  intro i
  rw [Nat.testBit_and, h, Nat.testBit_two_pow]
  by_cases hi : 2 = i
  · subst hi
    cases hb : x.testBit 2
    · simp
    · simp only [if_true, decide_True, Bool.and_true]
      decide
  · cases hb : x.testBit 2
    · simp [hi]
    · have h4 : (4 : Nat) = 2 ^ 2 := by decide
      simp only [if_true, h4, Nat.testBit_two_pow]
      simp [hi]

/-- Every access an update issues addresses the clock's own register. -/
theorem traced_memDev_update_offsets (clk : clk_plt) (mask val : Nat) (m : Nat → Nat)
    (log : List PmcCall) (c : PmcCall)
    (hc : c ∈ ((plt_pmc_atom_update (traced memDev) clk mask val (m, log)).2.2).drop
      log.length) :
    c.offset = clk.offset := by
  rw [traced_memDev_update] at hc
  split_ifs at hc
  · simp only [List.drop_left, List.mem_singleton] at hc
    subst hc
    rfl
  · simp only [List.drop_left, List.mem_cons, List.mem_singleton, List.not_mem_nil,
      or_false] at hc
    rcases hc with rfl | rfl <;> rfl

/-! ## Enable, disable and parent selection read back -/

/-- C1: over a read-back register store, for every clock index `i` in `0..5`
and every initial content of the store, `plt_clk_enable` returns 0 and a
following `plt_clk_is_enabled` returns 1. -/
theorem enable_then_is_enabled (i : Nat) (_hi : i < PMC_CLK_NUM) (m : Nat → Nat) :
    (plt_clk_enable memDev (clk_plt_init i) m).1 = 0 ∧
    (plt_clk_is_enabled memDev (clk_plt_init i)
      (plt_clk_enable memDev (clk_plt_init i) m).2).1 = 1 := by
  refine ⟨by simp [plt_clk_enable, memDev_update], ?_⟩
  rw [memDev_is_enabled]
  unfold plt_clk_enable
  rw [memDev_update_read _ _ _ _ (by decide)]
  unfold plt_reg_to_enabled
  rw [update_and_mask _ _ _ (to_u32_lt _) (by decide)]
  dsimp only
  decide

theorem enable_then_is_enabled_witness :
    3 < PMC_CLK_NUM ∧
    (plt_clk_enable memDev (clk_plt_init 3) (fun _ => 0xFFFFFFFE)).1 = 0 ∧
    (plt_clk_is_enabled memDev (clk_plt_init 3)
      (plt_clk_enable memDev (clk_plt_init 3) (fun _ => 0xFFFFFFFE)).2).1 = 1 :=
  ⟨by decide, enable_then_is_enabled 3 (by decide) (fun _ => 0xFFFFFFFE)⟩

/-- C2: over a read-back register store, for every clock index `i` in `0..5`
and every initial content of the store, `plt_clk_disable` followed by
`plt_clk_is_enabled` returns 0. -/
theorem disable_then_is_enabled (i : Nat) (_hi : i < PMC_CLK_NUM) (m : Nat → Nat) :
    (plt_clk_is_enabled memDev (clk_plt_init i)
      (plt_clk_disable memDev (clk_plt_init i) m)).1 = 0 := by
  rw [memDev_is_enabled]
  unfold plt_clk_disable
  rw [memDev_update_read _ _ _ _ (by decide)]
  unfold plt_reg_to_enabled
  rw [update_and_mask _ _ _ (to_u32_lt _) (by decide)]
  dsimp only
  decide

theorem disable_then_is_enabled_witness :
    5 < PMC_CLK_NUM ∧
    (plt_clk_is_enabled memDev (clk_plt_init 5)
      (plt_clk_disable memDev (clk_plt_init 5) (fun _ => 0x5))).1 = 0 :=
  ⟨by decide, disable_then_is_enabled 5 (by decide) (fun _ => 0x5)⟩

/-- C3: over a read-back register store, for every clock index `i` in `0..5`,
every initial content of the store and every 8-bit parent index `p`,
`plt_clk_set_parent i p` followed by `plt_clk_get_parent i` returns `p` when
`p` is 0 or 1 and 0 (crystal) for every other `p`. -/
theorem set_parent_then_get_parent (i : Nat) (_hi : i < PMC_CLK_NUM) (m : Nat → Nat)
    (p : Nat) (_hp : p < 256) :
    (plt_clk_get_parent memDev (clk_plt_init i)
      (plt_clk_set_parent memDev (clk_plt_init i) p m).2).1 =
      if p = 0 ∨ p = 1 then p else 0 := by
  rw [memDev_get_parent]
  unfold plt_clk_set_parent
  rw [memDev_update_read _ _ _ _ (by decide)]
  unfold plt_reg_to_parent
  rw [update_and_mask _ _ _ (to_u32_lt _) (by decide)]
  dsimp only
  match p with
  | 0 => decide
  | 1 => decide
  | n + 2 =>
    have h : ¬ (n + 2 = 0 ∨ n + 2 = 1) := by omega
    rw [if_neg h]
    simp only [plt_parent_to_reg]
    decide

theorem set_parent_then_get_parent_witness :
    (4 < PMC_CLK_NUM ∧ 1 < 256 ∧
      (plt_clk_get_parent memDev (clk_plt_init 4)
        (plt_clk_set_parent memDev (clk_plt_init 4) 1 (fun _ => 0x2)).2).1 = 1) :=
  ⟨by decide, by decide,
    set_parent_then_get_parent 4 (by decide) (fun _ => 0x2) 1 (by decide)⟩

/-- C4: each mutating operation changes only its own field. For every initial
content of the store, `plt_clk_enable` and `plt_clk_disable` leave bits 31..2 of
the clock's register unchanged, so `plt_clk_get_parent` reads the same parent
before and after; `plt_clk_set_parent` leaves bits 1..0 and 31..3 unchanged, so
`plt_clk_is_enabled` reads the same result before and after; the registers of
the other clock indices keep their content, and every access the three
operations issue addresses the clock's own register. -/
theorem update_frame (i : Nat) (_hi : i < PMC_CLK_NUM) (m : Nat → Nat) (p : Nat) :
    ((∀ b, 2 ≤ b → b < 32 →
        ((plt_clk_enable memDev (clk_plt_init i) m).2 (clk_plt_init i).offset).testBit b =
          (m (clk_plt_init i).offset).testBit b) ∧
      (plt_clk_get_parent memDev (clk_plt_init i)
          (plt_clk_enable memDev (clk_plt_init i) m).2).1 =
        (plt_clk_get_parent memDev (clk_plt_init i) m).1 ∧
      (∀ j, j ≠ i →
        (plt_clk_enable memDev (clk_plt_init i) m).2 (clk_plt_init j).offset =
          m (clk_plt_init j).offset)) ∧
    ((∀ b, 2 ≤ b → b < 32 →
        ((plt_clk_disable memDev (clk_plt_init i) m) (clk_plt_init i).offset).testBit b =
          (m (clk_plt_init i).offset).testBit b) ∧
      (plt_clk_get_parent memDev (clk_plt_init i)
          (plt_clk_disable memDev (clk_plt_init i) m)).1 =
        (plt_clk_get_parent memDev (clk_plt_init i) m).1 ∧
      (∀ j, j ≠ i →
        (plt_clk_disable memDev (clk_plt_init i) m) (clk_plt_init j).offset =
          m (clk_plt_init j).offset)) ∧
    ((∀ b, b ≠ 2 → b < 32 →
        ((plt_clk_set_parent memDev (clk_plt_init i) p m).2 (clk_plt_init i).offset).testBit b =
          (m (clk_plt_init i).offset).testBit b) ∧
      (plt_clk_is_enabled memDev (clk_plt_init i)
          (plt_clk_set_parent memDev (clk_plt_init i) p m).2).1 =
        (plt_clk_is_enabled memDev (clk_plt_init i) m).1 ∧
      (∀ j, j ≠ i →
        (plt_clk_set_parent memDev (clk_plt_init i) p m).2 (clk_plt_init j).offset =
          m (clk_plt_init j).offset)) ∧
    (∀ (log : List PmcCall) (c : PmcCall),
      (c ∈ ((plt_clk_enable (traced memDev) (clk_plt_init i) (m, log)).2.2).drop log.length →
        c.offset = (clk_plt_init i).offset) ∧
      (c ∈ ((plt_clk_disable (traced memDev) (clk_plt_init i) (m, log)).2).drop log.length →
        c.offset = (clk_plt_init i).offset) ∧
      (c ∈ ((plt_clk_set_parent (traced memDev) (clk_plt_init i) p (m, log)).2.2).drop
          log.length →
        c.offset = (clk_plt_init i).offset)) := by
  refine ⟨⟨?_, ?_, ?_⟩, ⟨?_, ?_, ?_⟩, ⟨?_, ?_, ?_⟩,
    fun log c => ⟨traced_memDev_update_offsets _ _ _ m log c,
      traced_memDev_update_offsets _ _ _ m log c,
      traced_memDev_update_offsets _ _ _ m log c⟩⟩
  · intro b hb hb32
    exact memDev_update_testBit _ _ _ _ _ (by decide) hb32 (testBit_mask_ctl b hb)
  · rw [memDev_get_parent, memDev_get_parent]
    unfold plt_clk_enable plt_reg_to_parent
    rw [memDev_update_field _ _ _ _ _ (by decide) (by decide)]
  · intro j hj
    exact memDev_update_other _ _ _ _ _ (clk_plt_init_offset_ne i j hj)
  · intro b hb hb32
    exact memDev_update_testBit _ _ _ _ _ (by decide) hb32 (testBit_mask_ctl b hb)
  · rw [memDev_get_parent, memDev_get_parent]
    unfold plt_clk_disable plt_reg_to_parent
    rw [memDev_update_field _ _ _ _ _ (by decide) (by decide)]
  · intro j hj
    exact memDev_update_other _ _ _ _ _ (clk_plt_init_offset_ne i j hj)
  · intro b hb hb32
    exact memDev_update_testBit _ _ _ _ _ (by decide) hb32 (testBit_mask_freq b hb)
  · rw [memDev_is_enabled, memDev_is_enabled]
    unfold plt_clk_set_parent plt_reg_to_enabled
    rw [memDev_update_field _ _ _ _ _ (by decide) (by decide)]
  · intro j hj
    exact memDev_update_other _ _ _ _ _ (clk_plt_init_offset_ne i j hj)

theorem update_frame_witness :
    2 < PMC_CLK_NUM ∧
    ((plt_clk_enable memDev (clk_plt_init 2) (fun _ => 0xDEADBEEF)).2
        (clk_plt_init 2).offset).testBit 2 =
      ((fun _ => 0xDEADBEEF : Nat → Nat) (clk_plt_init 2).offset).testBit 2 ∧
    ((plt_clk_set_parent memDev (clk_plt_init 2) 0 (fun _ => 0xDEADBEEF)).2
        (clk_plt_init 2).offset).testBit 31 =
      ((fun _ => 0xDEADBEEF : Nat → Nat) (clk_plt_init 2).offset).testBit 31 ∧
    (plt_clk_disable memDev (clk_plt_init 2) (fun _ => 0xDEADBEEF)) (clk_plt_init 4).offset =
      (fun _ => 0xDEADBEEF : Nat → Nat) (clk_plt_init 4).offset :=
  ⟨by decide,
    (update_frame 2 (by decide) (fun _ => 0xDEADBEEF) 0).1.1 2 (by decide) (by decide),
    (update_frame 2 (by decide) (fun _ => 0xDEADBEEF) 0).2.2.1.1 31 (by decide) (by decide),
    (update_frame 2 (by decide) (fun _ => 0xDEADBEEF) 0).2.1.2.2 4 (by decide)⟩

/-! ## The read-modify-write primitive -/

/-- C5: `plt_pmc_atom_update` is the specified read-modify-write, for every
device and every access log. If the read fails, the read's status is returned
and only the read was issued. Otherwise, with `old` the value read and
`new = rmw_new old mask val`: when `new = old` the result is 0 and only the
read was issued; when `new ≠ old` exactly one write of `new` to the same offset
follows the read, and the result is the status of that write (0 on success, its
error code on failure). `new` is a 32-bit value whenever `mask` is. -/
theorem plt_pmc_atom_update_rmw {σ : Type} (dev : PmcDev σ) (clk : clk_plt) (mask val : Nat)
    (s : σ) (log : List PmcCall) :
    ((dev.pmc_atom_read s clk.offset).1 ≠ 0 →
      plt_pmc_atom_update (traced dev) clk mask val (s, log) =
        ((dev.pmc_atom_read s clk.offset).1,
          ((dev.pmc_atom_read s clk.offset).2.2, log ++ [PmcCall.read clk.offset]))) ∧
    ((dev.pmc_atom_read s clk.offset).1 = 0 →
      rmw_new (to_u32 (dev.pmc_atom_read s clk.offset).2.1) mask val =
        to_u32 (dev.pmc_atom_read s clk.offset).2.1 →
      plt_pmc_atom_update (traced dev) clk mask val (s, log) =
        (0, ((dev.pmc_atom_read s clk.offset).2.2, log ++ [PmcCall.read clk.offset]))) ∧
    ((dev.pmc_atom_read s clk.offset).1 = 0 →
      rmw_new (to_u32 (dev.pmc_atom_read s clk.offset).2.1) mask val ≠
        to_u32 (dev.pmc_atom_read s clk.offset).2.1 →
      plt_pmc_atom_update (traced dev) clk mask val (s, log) =
        ((dev.pmc_atom_write (dev.pmc_atom_read s clk.offset).2.2 clk.offset
            (rmw_new (to_u32 (dev.pmc_atom_read s clk.offset).2.1) mask val)).1,
          ((dev.pmc_atom_write (dev.pmc_atom_read s clk.offset).2.2 clk.offset
            (rmw_new (to_u32 (dev.pmc_atom_read s clk.offset).2.1) mask val)).2,
           log ++ [PmcCall.read clk.offset,
             PmcCall.write clk.offset
               (rmw_new (to_u32 (dev.pmc_atom_read s clk.offset).2.1) mask val)]))) ∧
    (mask < 4294967296 →
      rmw_new (to_u32 (dev.pmc_atom_read s clk.offset).2.1) mask val < 4294967296) := by
  refine ⟨?_, ?_, ?_, ?_⟩
  · intro hrd
    simp [plt_pmc_atom_update, traced, hrd]
  · intro hrd hsame
    unfold rmw_new at hsame
    simp [plt_pmc_atom_update, traced, hrd, hsame]
  · intro hrd hdiff
    unfold rmw_new at hdiff
    unfold rmw_new
    simp [plt_pmc_atom_update, traced, hrd, hdiff]
  · intro hm
    exact update_lt _ _ _ (to_u32_lt _) hm

theorem plt_pmc_atom_update_rmw_witness :
    plt_pmc_atom_update (traced (faultyDev (-19) 0)) (clk_plt_init 0) 3 1 (fun _ => 2, []) =
        (-19, (faultyDev (-19) 0).pmc_atom_read (fun _ => 2) 0x60 |>.2.2,
          [PmcCall.read 0x60]) ∧
    (plt_pmc_atom_update (traced (faultyDev 0 (-5))) (clk_plt_init 0) 3 1 (fun _ => 1, [])).1 = 0 ∧
    (plt_pmc_atom_update (traced (faultyDev 0 (-5))) (clk_plt_init 0) 3 1 (fun _ => 1, [])).2.2 =
        [PmcCall.read 0x60] ∧
    (plt_pmc_atom_update (traced (faultyDev 0 (-5))) (clk_plt_init 0) 3 1 (fun _ => 2, [])).1 = -5 ∧
    (plt_pmc_atom_update (traced (faultyDev 0 (-5))) (clk_plt_init 0) 3 1 (fun _ => 2, [])).2.2 =
        [PmcCall.read 0x60, PmcCall.write 0x60 1] ∧
    (plt_pmc_atom_update (traced (faultyDev 0 0)) (clk_plt_init 0) 3 1 (fun _ => 2, [])).1 = 0 ∧
    (plt_pmc_atom_update (traced (faultyDev 0 0)) (clk_plt_init 0) 3 1 (fun _ => 2, [])).2.2 =
        [PmcCall.read 0x60, PmcCall.write 0x60 1] :=
  ⟨(plt_pmc_atom_update_rmw (faultyDev (-19) 0) (clk_plt_init 0) 3 1 (fun _ => 2) []).1
      (by decide),
    congrArg Prod.fst
      ((plt_pmc_atom_update_rmw (faultyDev 0 (-5)) (clk_plt_init 0) 3 1 (fun _ => 1) []).2.1
        (by decide) (by decide)),
    congrArg (fun r => r.2.2)
      ((plt_pmc_atom_update_rmw (faultyDev 0 (-5)) (clk_plt_init 0) 3 1 (fun _ => 1) []).2.1
        (by decide) (by decide)),
    congrArg Prod.fst
      ((plt_pmc_atom_update_rmw (faultyDev 0 (-5)) (clk_plt_init 0) 3 1 (fun _ => 2) []).2.2.1
        (by decide) (by decide)),
    congrArg (fun r => r.2.2)
      ((plt_pmc_atom_update_rmw (faultyDev 0 (-5)) (clk_plt_init 0) 3 1 (fun _ => 2) []).2.2.1
        (by decide) (by decide)),
    congrArg Prod.fst
      ((plt_pmc_atom_update_rmw (faultyDev 0 0) (clk_plt_init 0) 3 1 (fun _ => 2) []).2.2.1
        (by decide) (by decide)),
    congrArg (fun r => r.2.2)
      ((plt_pmc_atom_update_rmw (faultyDev 0 0) (clk_plt_init 0) 3 1 (fun _ => 2) []).2.2.1
        (by decide) (by decide))⟩

/-- C6: enable is idempotent over a read-back register store. For every clock
index `i` in `0..5`, every initial content and every access log, a second
`plt_clk_enable` returns 0, leaves the store as the first call left it, issues
only a read (no write), and the two calls together add at most one write to
the log. -/
theorem enable_twice (i : Nat) (_hi : i < PMC_CLK_NUM) (m : Nat → Nat) (log : List PmcCall) :
    (plt_clk_enable (traced memDev) (clk_plt_init i)
        (plt_clk_enable (traced memDev) (clk_plt_init i) (m, log)).2).1 = 0 ∧
    (plt_clk_enable (traced memDev) (clk_plt_init i)
        (plt_clk_enable (traced memDev) (clk_plt_init i) (m, log)).2).2.1 =
      (plt_clk_enable (traced memDev) (clk_plt_init i) (m, log)).2.1 ∧
    (plt_clk_enable (traced memDev) (clk_plt_init i)
        (plt_clk_enable (traced memDev) (clk_plt_init i) (m, log)).2).2.2 =
      (plt_clk_enable (traced memDev) (clk_plt_init i) (m, log)).2.2 ++
        [PmcCall.read (clk_plt_init i).offset] ∧
    ((plt_clk_enable (traced memDev) (clk_plt_init i)
        (plt_clk_enable (traced memDev) (clk_plt_init i) (m, log)).2).2.2.countP
          PmcCall.isWrite ≤ log.countP PmcCall.isWrite + 1) := by
  unfold plt_clk_enable
  rw [traced_memDev_update _ _ _ m log]
  by_cases h : (to_u32 (m (clk_plt_init i).offset) &&& u32_not PMC_MASK_CLK_CTL) |||
      (PMC_CLK_CTL_FORCE_ON &&& PMC_MASK_CLK_CTL) = to_u32 (m (clk_plt_init i).offset)
  · simp only [h, if_true]
    rw [traced_memDev_update]
    simp [h, List.countP_append, PmcCall.isWrite]
  · simp only [h, if_false]
    rw [traced_memDev_update]
    have hlt := update_lt (to_u32 (m (clk_plt_init i).offset)) PMC_MASK_CLK_CTL
      PMC_CLK_CTL_FORCE_ON (to_u32_lt _) (by decide)
    have hu : to_u32 ((to_u32 (m (clk_plt_init i).offset) &&& u32_not PMC_MASK_CLK_CTL) |||
        (PMC_CLK_CTL_FORCE_ON &&& PMC_MASK_CLK_CTL)) =
        (to_u32 (m (clk_plt_init i).offset) &&& u32_not PMC_MASK_CLK_CTL) |||
        (PMC_CLK_CTL_FORCE_ON &&& PMC_MASK_CLK_CTL) := Nat.mod_eq_of_lt hlt
    have hid := update_idem (to_u32 (m (clk_plt_init i).offset)) PMC_MASK_CLK_CTL
      PMC_CLK_CTL_FORCE_ON (to_u32_lt _) (by decide)
    simp only [Function.update_same, hu, hid, if_true]
    simp [List.countP_append, PmcCall.isWrite]

theorem enable_twice_witness :
    1 < PMC_CLK_NUM ∧
    (plt_clk_enable (traced memDev) (clk_plt_init 1)
        (plt_clk_enable (traced memDev) (clk_plt_init 1) (fun _ => 6, [])).2).2.2 =
      (plt_clk_enable (traced memDev) (clk_plt_init 1) (fun _ => 6, [])).2.2 ++
        [PmcCall.read (clk_plt_init 1).offset] :=
  ⟨by decide, (enable_twice 1 (by decide) (fun _ => 6) []).2.2.1⟩

/-! ## Decoding the register -/

/-- C7: `plt_clk_is_enabled` decodes only bits 1..0 of the value read. When the
read succeeds it returns 1 for the gate field `00` or `01` and 0 for `10` or
`11`; equivalently 1 exactly when bit 1 is clear, whatever the other bits. -/
theorem is_enabled_decode {σ : Type} (dev : PmcDev σ) (clk : clk_plt) (s : σ)
    (hrd : (dev.pmc_atom_read s clk.offset).1 = 0) :
    (to_u32 (dev.pmc_atom_read s clk.offset).2.1 % 4 = 0 →
      (plt_clk_is_enabled dev clk s).1 = 1) ∧
    (to_u32 (dev.pmc_atom_read s clk.offset).2.1 % 4 = 1 →
      (plt_clk_is_enabled dev clk s).1 = 1) ∧
    (to_u32 (dev.pmc_atom_read s clk.offset).2.1 % 4 = 2 →
      (plt_clk_is_enabled dev clk s).1 = 0) ∧
    (to_u32 (dev.pmc_atom_read s clk.offset).2.1 % 4 = 3 →
      (plt_clk_is_enabled dev clk s).1 = 0) ∧
    (plt_clk_is_enabled dev clk s).1 =
      (if (to_u32 (dev.pmc_atom_read s clk.offset).2.1).testBit 1 then 0 else 1) := by
  have hand : ∀ x : Nat, x &&& PMC_MASK_CLK_CTL = x % 4 := by
    intro x
    have h := Nat.and_pow_two_sub_one_eq_mod x 2
    simpa [mask_ctl_eq] using h
  have hbit : ∀ x : Nat, x.testBit 1 = decide (x / 2 % 2 = 1) := by
    intro x
    rw [Nat.testBit_to_div_mod]
  simp only [plt_clk_is_enabled, hrd, plt_reg_to_enabled, hand, hbit,
    PMC_CLK_CTL_GATED_ON_D3, PMC_CLK_CTL_FORCE_ON]
  generalize to_u32 (dev.pmc_atom_read s clk.offset).2.1 = v
  have h4 : v % 4 < 4 := Nat.mod_lt _ (by decide)
  refine ⟨?_, ?_, ?_, ?_, ?_⟩
  · intro h; simp [h]
  · intro h; simp [h]
  · intro h; simp [h]
  · intro h; simp [h]
  · by_cases h0 : v % 4 = 0
    · have : ¬ (v / 2 % 2 = 1) := by omega
      simp [h0, this]
    · by_cases h1 : v % 4 = 1
      · have : ¬ (v / 2 % 2 = 1) := by omega
        simp [h1, this]
      · have : v / 2 % 2 = 1 := by omega
        simp [h0, h1, this]

theorem is_enabled_decode_witness :
    (plt_clk_is_enabled memDev (clk_plt_init 2) (fun _ => 0xFFFFFFFD)).1 = 1 ∧
    (plt_clk_is_enabled memDev (clk_plt_init 2) (fun _ => 0x3)).1 = 0 :=
  ⟨(is_enabled_decode memDev (clk_plt_init 2) (fun _ => 0xFFFFFFFD) rfl).2.1 (by decide),
    (is_enabled_decode memDev (clk_plt_init 2) (fun _ => 0x3) rfl).2.2.2.1 (by decide)⟩

/-- C10: when the register read fails with status `e`, `plt_clk_get_parent`
returns `e` converted to `u8`, that is `e mod 256`, whatever the register holds
(`-5` becomes 251); for `e` in `-255..-1` the result is neither 0 nor 1 except
for `e = -255`, which becomes 1. When the read succeeds the result is bit 2 of
the value read. -/
theorem get_parent_decode {σ : Type} (dev : PmcDev σ) (clk : clk_plt) (s : σ) :
    ((dev.pmc_atom_read s clk.offset).1 ≠ 0 →
      (plt_clk_get_parent dev clk s).1 = ((dev.pmc_atom_read s clk.offset).1 % 256).toNat) ∧
    ((dev.pmc_atom_read s clk.offset).1 = -5 → (plt_clk_get_parent dev clk s).1 = 251) ∧
    (-255 < (dev.pmc_atom_read s clk.offset).1 → (dev.pmc_atom_read s clk.offset).1 ≤ -1 →
      (plt_clk_get_parent dev clk s).1 ≠ 0 ∧ (plt_clk_get_parent dev clk s).1 ≠ 1) ∧
    ((dev.pmc_atom_read s clk.offset).1 = -255 → (plt_clk_get_parent dev clk s).1 = 1) ∧
    ((dev.pmc_atom_read s clk.offset).1 = 0 →
      (plt_clk_get_parent dev clk s).1 =
        if (to_u32 (dev.pmc_atom_read s clk.offset).2.1).testBit 2 then 1 else 0) := by
  have hfail : (dev.pmc_atom_read s clk.offset).1 ≠ 0 →
      (plt_clk_get_parent dev clk s).1 = ((dev.pmc_atom_read s clk.offset).1 % 256).toNat := by
    intro h
    simp [plt_clk_get_parent, h, to_u8]
  refine ⟨hfail, ?_, ?_, ?_, ?_⟩
  · intro h
    rw [hfail (by omega), h]
    decide
  · intro h1 h2
    rw [hfail (by omega)]
    omega
  · intro h
    rw [hfail (by omega), h]
    decide
  · intro h
    simp only [plt_clk_get_parent, h, plt_reg_to_parent, and_mask_freq, PMC_CLK_FREQ_XTAL,
      PMC_CLK_FREQ_PLL]
    cases hb : (to_u32 (dev.pmc_atom_read s clk.offset).2.1).testBit 2 <;> simp [to_u8]

theorem get_parent_decode_witness :
    (plt_clk_get_parent (faultyDev (-5) 0) (clk_plt_init 0) (fun _ => 4)).1 = 251 ∧
    ((plt_clk_get_parent (faultyDev (-22) 0) (clk_plt_init 0) (fun _ => 4)).1 ≠ 0 ∧
      (plt_clk_get_parent (faultyDev (-22) 0) (clk_plt_init 0) (fun _ => 4)).1 ≠ 1) ∧
    (plt_clk_get_parent (faultyDev (-255) 0) (clk_plt_init 0) (fun _ => 0)).1 = 1 ∧
    (plt_clk_get_parent (faultyDev 0 0) (clk_plt_init 0) (fun _ => 4)).1 = 1 :=
  ⟨(get_parent_decode (faultyDev (-5) 0) (clk_plt_init 0) (fun _ => 4)).2.1 rfl,
    (get_parent_decode (faultyDev (-22) 0) (clk_plt_init 0) (fun _ => 4)).2.2.1
      (by decide) (by decide),
    (get_parent_decode (faultyDev (-255) 0) (clk_plt_init 0) (fun _ => 0)).2.2.2.1 rfl,
    (get_parent_decode (faultyDev 0 0) (clk_plt_init 0) (fun _ => 4)).2.2.2.2 rfl⟩

/-! ## Registration lemmas -/

theorem scan_parents_stops (clks : List pmc_clk) (hlen : clks.length ≤ 255) :
    ∀ fuel n, n ≤ clks.length → clks.length - n < fuel →
      scan_parents clks n fuel = some clks.length := by
  intro fuel
  induction fuel with
  | zero => intro n _ h; omega
  | succ fuel ih =>
    intro n hn hfuel
    unfold scan_parents
    by_cases hlt : n < clks.length
    · rw [if_pos hlt]
      have hmod : (n + 1) % 256 = n + 1 := Nat.mod_eq_of_lt (by omega)
      rw [hmod]
      exact ih (n + 1) (by omega) (by omega)
    · rw [if_neg hlt]
      congr 1
      omega

theorem scan_parents_length (clks : List pmc_clk) (n : Nat)
    (h : scan_parents clks 0 256 = some n) : n = clks.length ∧ clks.length ≤ 255 := by
  by_cases hlen : clks.length ≤ 255
  · rw [scan_parents_stops clks hlen 256 0 (by omega) (by omega)] at h
    exact ⟨(Option.some.inj h).symm, hlen⟩
  · exfalso
    have hgen : ∀ fuel n, n + fuel ≤ 256 → scan_parents clks n fuel = none := by
      intro fuel
      induction fuel with
      | zero => intro n _; rfl
      | succ fuel ih =>
        intro n hn
        unfold scan_parents
        have hlt : n < clks.length := by omega
        rw [if_pos hlt]
        by_cases hf : fuel = 0
        · subst hf; rfl
        · have hmod : (n + 1) % 256 = n + 1 := Nat.mod_eq_of_lt (by omega)
          rw [hmod]
          exact ih (n + 1) (by omega)
    rw [hgen 256 0 (by omega)] at h
    exact Option.noConfusion h

theorem register_fixed_rate_ok (env : HostEnv) (i : Nat) (h : Host) (p : Clk) (h' : Host)
    (hr : plt_clk_register_fixed_rate env i h = (Except.ok p, h')) :
    p = Clk.fixed i ∧ h' = (h.clk_register (Clk.fixed i)).clkdev_create (Clk.fixed i) := by
  unfold plt_clk_register_fixed_rate at hr
  cases h1 : env.devm_kzalloc_fixed i <;> cases h2 : env.clk_register_fixed_rate i <;>
    cases h3 : env.clkdev_create_fixed i <;> simp [h1, h2, h3] at hr
  exact ⟨hr.1.symm, hr.2.symm⟩

theorem register_ok (env : HostEnv) (i : Nat) (h : Host) (c : Clk) (h' : Host)
    (hr : plt_clk_register env i h = (Except.ok c, h')) :
    c = gate_clk i ∧ h' = (h.clk_register (gate_clk i)).clkdev_create (gate_clk i) := by
  unfold plt_clk_register at hr
  cases h1 : env.devm_kzalloc_plt i <;> cases h2 : env.clk_register i <;>
    cases h3 : env.clkdev_create_plt i <;> simp [h1, h2, h3] at hr
  exact ⟨hr.1.symm, hr.2.symm⟩

/-- A failed `plt_clk_register` leaves nothing registered. -/
theorem register_error (env : HostEnv) (i : Nat) (h : Host) (e : Int)
    (hr : (plt_clk_register env i h).1 = Except.error e) :
    (plt_clk_register env i h).2.clks = h.clks ∧
    (plt_clk_register env i h).2.lookups = h.lookups := by
  unfold plt_clk_register at hr ⊢
  cases h1 : env.devm_kzalloc_plt i <;> cases h2 : env.clk_register i <;>
    cases h3 : env.clkdev_create_plt i <;>
    simp [h1, h2, h3, Host.clk_register, Host.clk_unregister] at hr ⊢

theorem register_parents_loop_ok (env : HostEnv) :
    ∀ rem i parents h parents' h',
      register_parents_loop env i rem parents h = (Except.ok (), parents', h') →
      parents' = parents ++ (List.range' i rem).map Clk.fixed ∧
      h'.clks = ((List.range' i rem).map Clk.fixed).reverse ++ h.clks ∧
      h'.lookups = ((List.range' i rem).map Clk.fixed).reverse ++ h.lookups ∧
      h'.calls = h.calls ++ (List.range' i rem).flatMap (fun j => reg_calls (Clk.fixed j)) := by
  intro rem
  induction rem with
  | zero =>
    intro i parents h parents' h' hr
    simp only [register_parents_loop, Prod.mk.injEq] at hr
    obtain ⟨_, rfl, rfl⟩ := hr
    simp
  | succ rem ih =>
    intro i parents h parents' h' hr
    rw [register_parents_loop] at hr
    cases hreg : plt_clk_register_fixed_rate env i h with
    | mk r hh =>
      rw [hreg] at hr
      cases r with
      | error e => simp at hr
      | ok p =>
        simp only at hr
        obtain ⟨rfl, rfl⟩ := register_fixed_rate_ok env i h p hh hreg
        obtain ⟨h1, h2, h3, h4⟩ := ih (i + 1) _ _ _ _ hr
        refine ⟨?_, ?_, ?_, ?_⟩
        · rw [h1]; simp [List.range'_succ]
        · rw [h2]; simp [List.range'_succ, Host.clk_register, Host.clkdev_create]
        · rw [h3]; simp [List.range'_succ, Host.clk_register, Host.clkdev_create]
        · rw [h4]; simp [List.range'_succ, Host.clk_register, Host.clkdev_create, reg_calls]

/-- What a successful `plt_clk_register_parents` leaves behind: the parents
`0 .. n-1` created in that order, all registered. -/
theorem register_parents_ok (env : HostEnv) (platdata : Option (List pmc_clk)) (h0 : Host)
    (names : List String) (data : clk_plt_data) (h1 : Host)
    (hr : plt_clk_register_parents env platdata h0 = some (Except.ok names, data, h1)) :
    data.parents = (List.range data.nparents).map Clk.fixed ∧
    data.nparents = (match platdata with | none => 0 | some clks => clks.length) ∧
    h1.clks = ((List.range data.nparents).map Clk.fixed).reverse ++ h0.clks ∧
    h1.lookups = ((List.range data.nparents).map Clk.fixed).reverse ++ h0.lookups ∧
    h1.calls = h0.calls ++
      (List.range data.nparents).flatMap (fun j => reg_calls (Clk.fixed j)) := by
  unfold plt_clk_register_parents at hr
  cases platdata with
  | none =>
    simp only [Option.some.injEq, Prod.mk.injEq] at hr
    obtain ⟨_, rfl, rfl⟩ := hr
    simp
  | some clks =>
    simp only at hr
    cases hscan : scan_parents clks 0 256 with
    | none => rw [hscan] at hr; simp at hr
    | some n =>
      rw [hscan] at hr
      obtain ⟨hn, _⟩ := scan_parents_length clks n hscan
      simp only at hr
      split_ifs at hr
      · simp at hr
      · simp at hr
      · cases hloop : register_parents_loop env 0 n [] h0 with
        | mk r rest =>
          obtain ⟨parents, hh⟩ := rest
          rw [hloop] at hr
          cases r with
          | error pe => simp at hr
          | ok u =>
            simp only [Option.some.injEq, Prod.mk.injEq] at hr
            obtain ⟨_, rfl, rfl⟩ := hr
            obtain ⟨h1, h2, h3, h4⟩ := register_parents_loop_ok env n 0 [] h0 parents hh hloop
            simp only [List.range_eq_range']
            refine ⟨by simpa using h1, hn, h2, h3, h4⟩

/-! ## Unregistration lemmas -/

theorem unregister_fixed_rate_calls (p : Clk) (h : Host) :
    (plt_clk_unregister_fixed_rate p h).calls = h.calls ++ unreg_calls p := by
  simp [plt_clk_unregister_fixed_rate, Host.clkdev_drop, Host.clk_unregister, unreg_calls]

theorem unregister_fixed_rate_clks (p : Clk) (h : Host) :
    (plt_clk_unregister_fixed_rate p h).clks = h.clks.erase p := rfl

theorem unregister_fixed_rate_lookups (p : Clk) (h : Host) :
    (plt_clk_unregister_fixed_rate p h).lookups = h.lookups.erase p := rfl

/-- The forward loop of `plt_clk_unregister_parents` after `t` iterations. -/
theorem unregister_parents_upto (data : clk_plt_data) (h : Host) (rest lrest : List Clk)
    (hp : data.parents = (List.range data.nparents).map Clk.fixed)
    (hc : h.clks = ((List.range data.nparents).map Clk.fixed).reverse ++ rest)
    (hl : h.lookups = ((List.range data.nparents).map Clk.fixed).reverse ++ lrest) :
    ∀ t, t ≤ data.nparents →
      ((List.range t).foldl
        (fun h i => match data.parents[i]? with
          | some p => plt_clk_unregister_fixed_rate p h
          | none => h) h).clks =
        ((List.range' t (data.nparents - t)).map Clk.fixed).reverse ++ rest ∧
      ((List.range t).foldl
        (fun h i => match data.parents[i]? with
          | some p => plt_clk_unregister_fixed_rate p h
          | none => h) h).lookups =
        ((List.range' t (data.nparents - t)).map Clk.fixed).reverse ++ lrest ∧
      ((List.range t).foldl
        (fun h i => match data.parents[i]? with
          | some p => plt_clk_unregister_fixed_rate p h
          | none => h) h).calls =
        h.calls ++ (List.range t).flatMap (fun j => unreg_calls (Clk.fixed j)) := by
  intro t
  induction t with
  | zero =>
    intro _
    simp [hc, hl, List.range_eq_range']
  | succ t ih =>
    intro ht
    obtain ⟨ih1, ih2, ih3⟩ := ih (by omega)
    have hget : data.parents[t]? = some (Clk.fixed t) := by
      rw [hp]
      simp [List.getElem?_range, show t < data.nparents by omega]
    have hsplit : data.nparents - t = (data.nparents - (t + 1)) + 1 := by omega
    have hnotin : Clk.fixed t ∉
        ((List.range' (t + 1) (data.nparents - (t + 1))).map Clk.fixed).reverse := by
      simp only [List.mem_reverse, List.mem_map, List.mem_range'_1, not_exists, not_and]
      intro j hj heq
      have : j = t := Clk.fixed.inj heq
      omega
    rw [List.range_succ, List.foldl_append]
    simp only [List.foldl_cons, List.foldl_nil, hget]
    rw [hsplit, List.range'_succ] at ih1 ih2
    simp only [List.map_cons, List.reverse_cons, List.append_assoc] at ih1 ih2
    refine ⟨?_, ?_, ?_⟩
    · rw [unregister_fixed_rate_clks, ih1, List.erase_append_right _ hnotin]
      simp
    · rw [unregister_fixed_rate_lookups, ih2, List.erase_append_right _ hnotin]
      simp
    · rw [unregister_fixed_rate_calls, ih3]
      simp

/-- The loop of `plt_clk_unregister_parents` walks the parents in creation order and leaves
none of them registered. -/
theorem unregister_parents_all (data : clk_plt_data) (h : Host) (rest lrest : List Clk)
    (hp : data.parents = (List.range data.nparents).map Clk.fixed)
    (hc : h.clks = ((List.range data.nparents).map Clk.fixed).reverse ++ rest)
    (hl : h.lookups = ((List.range data.nparents).map Clk.fixed).reverse ++ lrest) :
    (plt_clk_unregister_parents data h).clks = rest ∧
    (plt_clk_unregister_parents data h).lookups = lrest ∧
    (plt_clk_unregister_parents data h).calls =
      h.calls ++ (List.range data.nparents).flatMap (fun j => unreg_calls (Clk.fixed j)) := by
  obtain ⟨h1, h2, h3⟩ :=
    unregister_parents_upto data h rest lrest hp hc hl data.nparents (le_refl _)
  unfold plt_clk_unregister_parents
  refine ⟨?_, ?_, h3⟩
  · rw [h1]; simp
  · rw [h2]; simp

/-- The calls of `plt_clk_unregister_parents`, whatever the registry holds. -/
theorem unregister_parents_calls (data : clk_plt_data) (h : Host)
    (hp : data.parents = (List.range data.nparents).map Clk.fixed) :
    (plt_clk_unregister_parents data h).calls =
      h.calls ++ (List.range data.nparents).flatMap (fun j => unreg_calls (Clk.fixed j)) := by
  unfold plt_clk_unregister_parents
  generalize data.nparents = n at hp
  have hgen : ∀ t, t ≤ n →
      ((List.range t).foldl
        (fun h i => match data.parents[i]? with
          | some p => plt_clk_unregister_fixed_rate p h
          | none => h) h).calls =
        h.calls ++ (List.range t).flatMap (fun j => unreg_calls (Clk.fixed j)) := by
    intro t
    induction t with
    | zero => intro _; simp
    | succ t ih =>
      intro ht
      have hget : data.parents[t]? = some (Clk.fixed t) := by
        rw [hp]
        simp [List.getElem?_range, show t < n by omega]
      rw [List.range_succ, List.foldl_append]
      simp only [List.foldl_cons, List.foldl_nil, hget]
      rw [unregister_fixed_rate_calls, ih (by omega)]
      simp
  exact hgen n (le_refl _)

theorem unregistered_append (a b : List HostCall) :
    unregistered (a ++ b) = unregistered a ++ unregistered b := by
  simp [unregistered]

theorem unregistered_unreg_calls (l : List Nat) (f : Nat → Clk) :
    unregistered (l.flatMap (fun j => unreg_calls (f j))) = l.map f := by
  induction l with
  | nil => rfl
  | cons a l ih =>
    rw [List.flatMap_cons, unregistered_append, ih]
    simp [unregistered, unreg_calls]

theorem unregister_some (c : Clk) (h : Host) :
    plt_clk_unregister (some c) h =
      { clks := h.clks.erase c, lookups := h.lookups.erase c,
        calls := h.calls ++ unreg_calls c } := by
  simp [plt_clk_unregister, Host.clkdev_drop, Host.clk_unregister, unreg_calls]

/-- The reverse loop of the `err_unreg_clk_plt` path pops the gates `t-1 .. 0`. -/
theorem unregister_gates_rollback (clks : List Clk) (K : Nat)
    (hclks : ∀ j, j < K → clks[j]? = some (gate_clk j)) :
    ∀ t, t ≤ K → ∀ (h : Host) (rest lrest : List Clk),
      h.clks = ((List.range t).map gate_clk).reverse ++ rest →
      h.lookups = ((List.range t).map gate_clk).reverse ++ lrest →
      ((List.range t).reverse.foldl (fun h j => plt_clk_unregister clks[j]? h) h).clks = rest ∧
      ((List.range t).reverse.foldl (fun h j => plt_clk_unregister clks[j]? h) h).lookups =
        lrest ∧
      ((List.range t).reverse.foldl (fun h j => plt_clk_unregister clks[j]? h) h).calls =
        h.calls ++ (List.range t).reverse.flatMap (fun j => unreg_calls (gate_clk j)) := by
  intro t
  induction t with
  | zero =>
    intro _ h rest lrest hc hl
    simpa using ⟨hc, hl⟩
  | succ t ih =>
    intro ht h rest lrest hc hl
    rw [List.range_succ, List.reverse_append, List.reverse_singleton, List.singleton_append,
      List.foldl_cons, hclks t (by omega), unregister_some]
    rw [List.range_succ, List.map_append, List.reverse_append] at hc hl
    simp only [List.map_cons, List.map_nil, List.reverse_singleton, List.singleton_append,
      List.cons_append] at hc hl
    obtain ⟨h1, h2, h3⟩ := ih (by omega)
      { clks := h.clks.erase (gate_clk t), lookups := h.lookups.erase (gate_clk t),
        calls := h.calls ++ unreg_calls (gate_clk t) } rest lrest
      (by simp [hc]) (by simp [hl])
    refine ⟨h1, h2, ?_⟩
    rw [h3]
    simp

/-- The gate loop of `plt_clk_probe` when gates before `k` register and gate `k`
fails with `e`: it stops at `k` with the gates `i .. k-1` registered. -/
theorem probe_loop_fail (env : HostEnv) (k : Nat) (e : Int)
    (hok : ∀ j, j < k → ∀ h, (plt_clk_register env j h).1 = Except.ok (gate_clk j))
    (hfail : ∀ h, (plt_clk_register env k h).1 = Except.error e) :
    ∀ rem i clks h, i ≤ k → k < i + rem →
      (probe_loop env i rem clks h).1 = Except.error (e, k) ∧
      (probe_loop env i rem clks h).2.1 = clks ++ (List.range' i (k - i)).map gate_clk ∧
      (probe_loop env i rem clks h).2.2.clks =
        ((List.range' i (k - i)).map gate_clk).reverse ++ h.clks ∧
      (probe_loop env i rem clks h).2.2.lookups =
        ((List.range' i (k - i)).map gate_clk).reverse ++ h.lookups := by
  intro rem
  induction rem with
  | zero => intro i clks h h1 h2; omega
  | succ rem ih =>
    intro i clks h hik hrem
    rw [probe_loop]
    cases hreg : plt_clk_register env i h with
    | mk r hh =>
      by_cases hi : i = k
      · subst hi
        have hr : r = Except.error e := by
          have := hfail h
          rw [hreg] at this
          exact this
        subst hr
        have herr := register_error env i h e (hfail h)
        rw [hreg] at herr
        simpa using herr
      · have hr : r = Except.ok (gate_clk i) := by
          have := hok i (by omega) h
          rw [hreg] at this
          exact this
        subst hr
        obtain ⟨_, rfl⟩ := register_ok env i h _ hh hreg
        obtain ⟨h1, h2, h3, h4⟩ := ih (i + 1) (clks ++ [gate_clk i])
          ((h.clk_register (gate_clk i)).clkdev_create (gate_clk i)) (by omega) (by omega)
        have hsplit : k - i = (k - (i + 1)) + 1 := by omega
        simp only
        refine ⟨h1, ?_, ?_, ?_⟩
        · rw [h2, hsplit, List.range'_succ]; simp
        · rw [h3, hsplit, List.range'_succ]
          simp [Host.clk_register, Host.clkdev_create]
        · rw [h4, hsplit, List.range'_succ]
          simp [Host.clk_register, Host.clkdev_create]

/-! ## Attach and detach -/

/-- C8: attach rolls back when a gate fails to register. If
`plt_clk_register_parents` succeeded and `plt_clk_register` succeeds for the
gates before `k` and fails for gate `k` (`k` in `0..5`) with error `e`, then the
gate loop stops at `k` with the gates `0 .. k-1` and all parents registered;
`plt_clk_probe` then unregisters exactly the gates `k-1, ..., 0` in that order,
then every parent, installs no driver data and returns `e`; afterwards the
registry holds what it held before the call. -/
theorem probe_rollback (env : HostEnv) (platdata : Option (List pmc_clk)) (h0 : Host)
    (names : List String) (data : clk_plt_data) (h1 : Host) (k : Nat) (e : Int)
    (halloc : env.devm_kzalloc_data = true)
    (hparents : plt_clk_register_parents env platdata h0 = some (Except.ok names, data, h1))
    (hk : k < PMC_CLK_NUM)
    (hok : ∀ j, j < k → ∀ h, (plt_clk_register env j h).1 = Except.ok (gate_clk j))
    (hfail : ∀ h, (plt_clk_register env k h).1 = Except.error e) :
    (probe_loop env 0 PMC_CLK_NUM [] h1).1 = Except.error (e, k) ∧
    (probe_loop env 0 PMC_CLK_NUM [] h1).2.2.clks =
      ((List.range k).map gate_clk).reverse ++
        (((List.range data.nparents).map Clk.fixed).reverse ++ h0.clks) ∧
    ∃ hend : Host,
      plt_clk_probe env platdata h0 = some (e, none, hend) ∧
      hend.calls = (probe_loop env 0 PMC_CLK_NUM [] h1).2.2.calls ++
        ((List.range k).reverse.flatMap (fun j => unreg_calls (gate_clk j)) ++
          (List.range data.nparents).flatMap (fun j => unreg_calls (Clk.fixed j))) ∧
      unregistered (hend.calls.drop (probe_loop env 0 PMC_CLK_NUM [] h1).2.2.calls.length) =
        (List.range k).reverse.map gate_clk ++ (List.range data.nparents).map Clk.fixed ∧
      hend.clks = h0.clks ∧
      hend.lookups = h0.lookups := by
  obtain ⟨hp, _, hc1, hl1, _⟩ := register_parents_ok env platdata h0 names data h1 hparents
  obtain ⟨l1, l2, l3, l4⟩ :=
    probe_loop_fail env k e hok hfail PMC_CLK_NUM 0 [] h1 (Nat.zero_le _) (by omega)
  rw [← List.range_eq_range', Nat.sub_zero] at l2 l3 l4
  rw [List.nil_append] at l2
  rw [hc1] at l3
  rw [hl1] at l4
  refine ⟨l1, l3, ?_⟩
  unfold plt_clk_probe
  simp only [halloc, hparents, Bool.not_true, Bool.false_eq_true, if_false]
  cases hloop : probe_loop env 0 PMC_CLK_NUM [] h1 with
  | mk r rest =>
    obtain ⟨clks, hf⟩ := rest
    rw [hloop] at l1 l2 l3 l4
    simp only at l1 l2 l3 l4
    subst l1
    simp only
    have hclks : ∀ j, j < k → clks[j]? = some (gate_clk j) := by
      intro j hj
      rw [l2]
      simp [List.getElem?_range, hj]
    obtain ⟨g1, g2, g3⟩ := unregister_gates_rollback clks k hclks k (le_refl _) hf _ _ l3 l4
    obtain ⟨u1, u2, u3⟩ := unregister_parents_all { data with clks := clks }
      ((List.range k).reverse.foldl (fun h j => plt_clk_unregister clks[j]? h) hf)
      h0.clks h0.lookups hp g1 g2
    refine ⟨_, rfl, ?_, ?_, u1, u2⟩
    · rw [u3, g3, List.append_assoc]
    · rw [u3, g3, List.append_assoc, List.drop_left, unregistered_append,
        unregistered_unreg_calls, unregistered_unreg_calls]

theorem probe_rollback_witness :
    ∃ hend : Host,
      plt_clk_probe gate3Env (some byt_clks) Host.empty = some (-17, none, hend) ∧
      hend.calls = (probe_loop gate3Env 0 PMC_CLK_NUM [] byt_host).2.2.calls ++
        ((List.range 3).reverse.flatMap (fun j => unreg_calls (gate_clk j)) ++
          (List.range byt_data.nparents).flatMap (fun j => unreg_calls (Clk.fixed j))) ∧
      unregistered
          (hend.calls.drop (probe_loop gate3Env 0 PMC_CLK_NUM [] byt_host).2.2.calls.length) =
        (List.range 3).reverse.map gate_clk ++ (List.range byt_data.nparents).map Clk.fixed ∧
      hend.clks = Host.empty.clks ∧
      hend.lookups = Host.empty.lookups :=
  (probe_rollback gate3Env (some byt_clks) Host.empty ["xtal", "pll"] byt_data byt_host 3 (-17)
    rfl rfl (by decide)
    (fun j hj h => by
      have h3 : j = 0 ∨ j = 1 ∨ j = 2 := by omega
      rcases h3 with rfl | rfl | rfl <;> rfl)
    (fun _ => rfl)).2.2

/-- C9 as stated fails: after registering the two Baytrail parents in order
0, 1, `plt_clk_unregister_parents` unregisters parent 0 first and parent 1
second, not in the reverse order 1, 0. -/
theorem unregister_parents_reverse_counterexample :
    plt_clk_register_parents okEnv (some byt_clks) Host.empty =
      some (Except.ok ["xtal", "pll"], byt_data, byt_host) ∧
    unregistered ((plt_clk_unregister_parents byt_data byt_host).calls.drop
        byt_host.calls.length) = [Clk.fixed 0, Clk.fixed 1] ∧
    unregistered ((plt_clk_unregister_parents byt_data byt_host).calls.drop
        byt_host.calls.length) ≠ [Clk.fixed 1, Clk.fixed 0] :=
  ⟨rfl, by decide, by decide⟩

/-- C9, amended: the parents that `plt_clk_register_parents` registered in the
order `0, 1, ..., n-1` are unregistered by `plt_clk_unregister_parents` in that
same order, each once; `plt_clk_remove` does so after unregistering the gates. -/
theorem unregister_parents_order (env : HostEnv) (platdata : Option (List pmc_clk))
    (h0 : Host) (names : List String) (data : clk_plt_data) (h1 : Host)
    (hreg : plt_clk_register_parents env platdata h0 = some (Except.ok names, data, h1))
    (h : Host) (clks : List Clk) :
    data.parents = (List.range data.nparents).map Clk.fixed ∧
    h1.calls = h0.calls ++
      (List.range data.nparents).flatMap (fun j => reg_calls (Clk.fixed j)) ∧
    (plt_clk_unregister_parents data h).calls = h.calls ++
      (List.range data.nparents).flatMap (fun j => unreg_calls (Clk.fixed j)) ∧
    unregistered ((plt_clk_unregister_parents data h).calls.drop h.calls.length) =
      (List.range data.nparents).map Clk.fixed ∧
    unregistered ((plt_clk_remove (some { data with clks := clks }) h).2.calls.drop
        ((List.range PMC_CLK_NUM).foldl
          (fun h i => plt_clk_unregister clks[i]? h) h).calls.length) =
      (List.range data.nparents).map Clk.fixed := by
  obtain ⟨hp, _, _, _, hcalls⟩ := register_parents_ok env platdata h0 names data h1 hreg
  refine ⟨hp, hcalls, unregister_parents_calls data h hp, ?_, ?_⟩
  · rw [unregister_parents_calls data h hp, List.drop_left, unregistered_unreg_calls]
  · simp only [plt_clk_remove]
    rw [unregister_parents_calls { data with clks := clks } _ hp, List.drop_left,
      unregistered_unreg_calls]

theorem unregister_parents_order_witness :
    unregistered ((plt_clk_unregister_parents byt_data byt_host).calls.drop
        byt_host.calls.length) = (List.range byt_data.nparents).map Clk.fixed :=
  (unregister_parents_order okEnv (some byt_clks) Host.empty ["xtal", "pll"] byt_data byt_host
    rfl byt_host []).2.2.2.1

end ClkBytPlt

namespace HdmiAudioIf

/-! ## The audio register range -/

/-- C11 at the failing input: the range test accepts exactly the offsets
`0x65000 .. 0x65FFE`, so at `reg = 0x65FFF`, the last offset of the audio
register range, with a monitor that is not DVI, `hdmi_audio_write` and
`hdmi_audio_read` return `-EINVAL` and issue no register access (`*val` keeps
its content), and `hdmi_audio_rmw` does the same; one offset lower, at
`0x65FFE`, the write is performed at `VLV_DISPLAY_BASE + reg` and returns 0. -/
theorem hdmi_audio_top_of_range_rejected {σ : Type} (dev : I915Dev σ) (k : Consts)
    (hdmi_priv : hdmi_audio_priv) (val mask : Nat) (s : σ) (log : List MmioCall) :
    (∀ reg, IS_HDMI_AUDIO_I915 reg = true ↔ (0x65000 ≤ reg ∧ reg ≤ 0x65FFE)) ∧
    hdmi_audio_write (tracedMmio dev) k hdmi_priv 0x65FFF val (s, log) =
      ((if hdmi_priv.monitor_type = k.MONITOR_TYPE_DVI then 0 else -EINVAL), (s, log)) ∧
    hdmi_audio_read (tracedMmio dev) k hdmi_priv 0x65FFF val (s, log) =
      ((if hdmi_priv.monitor_type = k.MONITOR_TYPE_DVI then 0 else -EINVAL), val, (s, log)) ∧
    hdmi_audio_rmw (tracedMmio dev) k 0x65FFF val mask (s, log) = (-EINVAL, (s, log)) ∧
    hdmi_audio_write (tracedMmio dev) k hdmi_priv 0x65FFE val (s, log) =
      (0, if hdmi_priv.monitor_type = k.MONITOR_TYPE_DVI then (s, log)
        else (dev.I915_WRITE s (ClkBytPlt.to_u32 (k.VLV_DISPLAY_BASE + 0x65FFE)) val,
          log ++ [MmioCall.write (ClkBytPlt.to_u32 (k.VLV_DISPLAY_BASE + 0x65FFE)) val])) := by
  have htop : IS_HDMI_AUDIO_I915 0x65FFF = false := by decide
  have hbelow : IS_HDMI_AUDIO_I915 0x65FFE = true := by decide
  refine ⟨?_, ?_, ?_, ?_, ?_⟩
  · intro reg
    simp only [IS_HDMI_AUDIO_I915, Bool.and_eq_true, decide_eq_true_eq]
    omega
  · unfold hdmi_audio_write
    by_cases hd : hdmi_priv.monitor_type = k.MONITOR_TYPE_DVI
    · simp [hd]
    · simp [hd, htop]
  · unfold hdmi_audio_read
    by_cases hd : hdmi_priv.monitor_type = k.MONITOR_TYPE_DVI
    · simp [hd]
    · simp [hd, htop]
  · unfold hdmi_audio_rmw
    simp [htop]
  · unfold hdmi_audio_write
    by_cases hd : hdmi_priv.monitor_type = k.MONITOR_TYPE_DVI
    · simp [hd]
    · simp [hd, hbelow, tracedMmio]

end HdmiAudioIf
